import Mathlib

/-! Stellar control plane: subnet allocator, scheduler, service dependencies, heartbeat.

A shallow embedding of the parts of the repository that the properties below
are about, followed by the properties themselves.

* `network`   : `services/network/subnet.go` (`AllocateSubnet`, `GetSubnet`)
* `services`  : the `Requires()` methods of the application and proxy services
* `scheduler` : `schedule`, as exercised by `services/scheduler/schedule_test.go`
* `agent`     : `agent/heartbeat.go`
* `services.proxy` : the event listener of `services/proxy/service.go`
-/

set_option autoImplicit false

namespace network

/-! ## Texts, networks and the `net` package -/

/-- An IPv4 network as held by a `net.IPNet`: the address as a 32-bit number
and the number of leading one bits of the mask. -/
structure IPNet where
  ip : Nat
  len : Nat
deriving DecidableEq, Repr

/-- The strings the allocator handles (datastore values, `Subnet.CIDR` fields,
`SubnetCIDR` in responses), classified the way `net.ParseCIDR` reads them:
the empty string, a text `a.b.c.d/len` (the address given as the number
`a*2^24 + b*2^16 + c*2^8 + d`; a text whose address or length is out of range
is rejected by the parser), or any other non-empty text (never a CIDR; the tag
tells different texts apart). IPv6 texts are outside this model. -/
inductive Text where
  | empty
  | cidr (ip len : Nat)
  | malformed (tag : Nat)
deriving DecidableEq, Repr

/-- The address `a.b.c.d` as a number. -/
def ipv4 (a b c d : Nat) : Nat := a * 2 ^ 24 + b * 2 ^ 16 + c * 2 ^ 8 + d

/-- `IP.Mask` with a mask of `len` leading ones: the low `32 - len` bits are cleared. -/
def maskIP (ip len : Nat) : Nat := ip / 2 ^ (32 - len) * 2 ^ (32 - len)

/-- `net.ParseCIDR`, keeping the `*net.IPNet` it returns (address masked to the
prefix length); `none` stands for the parse error. -/
def ParseCIDR : Text → Option IPNet
  | .cidr ip len => if ip < 2 ^ 32 ∧ len ≤ 32 then some ⟨maskIP ip len, len⟩ else none
  | _ => none

/-- `(*net.IPNet).String`: the address as held, a slash, the prefix length. -/
def IPNet.String (n : IPNet) : Text := .cidr n.ip n.len

/-- `net.CIDRMask(ones, bits)` followed by `IPMask.Size()`, first component:
`CIDRMask` returns the nil mask when `ones` is negative or exceeds `bits`,
and the size of the nil mask is `0, 0`. -/
def cidrMaskSize (ones : Int) (bits : Nat) : Nat :=
  if 0 ≤ ones ∧ ones ≤ (bits : Int) then ones.toNat else 0

/-! ## The Datastore network bucket -/

/-- The network bucket: an association list from full keys to values, with at
most one entry per key in every state built by `Datastore.Set`. -/
abbrev Bucket := List (String × Text)

/-- Error kinds of a Datastore call after `errdefs.FromGRPC`. -/
inductive DsError where
  | notFound
  | unavailable
deriving DecidableEq, Repr

/-- Key format `subnets.%s`. -/
def dsSubnetsKey (node : String) : String := "subnets." ++ node

/-- `Datastore().Get(bucket, key)`. -/
def Datastore.Get (ds : Bucket) (key : String) : Except DsError Text :=
  match ds.lookup key with
  | some v => .ok v
  | none => .error .notFound

/-- `Datastore().Search(bucket, searchKey)`: the entries whose key starts with `searchKey`. -/
def Datastore.Search (ds : Bucket) (searchKey : String) : Except DsError Bucket :=
  .ok (ds.filter (fun kv => searchKey.data.isPrefixOf kv.1.data))

/-- Replace the value under `key`, or add the entry at the end. -/
def upsert (key : String) (v : Text) : Bucket → Bucket
  | [] => [(key, v)]
  | (k, w) :: rest => if k = key then (k, v) :: rest else (k, w) :: upsert key v rest

/-- `Datastore().Set(bucket, key, value, true)`. -/
def Datastore.Set (ds : Bucket) (key : String) (v : Text) : Except DsError Bucket :=
  .ok (upsert key v ds)

/-! ## The network service -/

/-- The parts of the network service that `AllocateSubnet` reads:
`s.config.Subnet`, the constant `subnetMaskBits`, and the `CIDR` fields of the
list that `s.Subnets` returns (a function of the configuration only). -/
structure service where
  configSubnet : IPNet
  subnetMaskBits : Nat
  subnets : List Text
deriving Repr

/-- Errors returned by the network service. -/
inductive Error where
  | ErrNoAvailableSubnets
  | ErrSubnetNotFound
  | parseCIDR
  | needSubnets (assigned : Nat)
  | datastore (e : DsError)
deriving DecidableEq, Repr

/-- Outcome of a handler: a response, an error, or a run-time fault
(index out of range). -/
inductive Outcome (α : Type) where
  | ok (a : α)
  | err (e : Error)
  | fault
deriving DecidableEq, Repr

structure AllocateSubnetResponse where
  SubnetCIDR : Text
  Node : String
deriving DecidableEq, Repr

structure GetSubnetResponse where
  SubnetCIDR : Text
deriving DecidableEq, Repr

/-- Lines 46-53 of `AllocateSubnet`: read `subnets.<node>`; a NotFound error is
recovered and leaves the empty string. -/
def readLocalSubnet (ds : Bucket) (localSubnetKey : String) : Except Error Text :=
  match Datastore.Get ds localSubnetKey with
  | .ok v => .ok v
  | .error e => if e ≠ .notFound then .error (.datastore e) else .ok .empty

/-- The cluster network reconstructed from a stored subnet (lines 62-73). -/
def clusterSubnetOf (s : service) (localSubnet : Text) : Except Error IPNet :=
  match ParseCIDR localSubnet with
  | none => .error .parseCIDR
  | some localSub =>
    let localSize := localSub.len
    let localBits := 32
    let m := cidrMaskSize ((localSize : Int) - (s.subnetMaskBits : Int)) localBits
    match ParseCIDR (.cidr localSub.ip m) with
    | none => .error .parseCIDR
    | some clusterSubnet => .ok clusterSubnet

/-- Lines 59-83 of `AllocateSubnet`: a stored subnet whose reconstructed cluster
network differs from the configured one is dropped (set to the empty string). -/
def checkConfig (s : service) (localSubnet : Text) : Except Error Text :=
  if localSubnet ≠ .empty then
    match clusterSubnetOf s localSubnet with
    | .error e => .error e
    | .ok clusterSubnet =>
      if clusterSubnet.String ≠ s.configSubnet.String then .ok .empty else .ok localSubnet
  else .ok localSubnet

/-- Line 88-97 of `AllocateSubnet`: the number of entries under `subnets.`. -/
def countAssigned (ds : Bucket) : Except Error Nat :=
  match Datastore.Search ds (dsSubnetsKey "") with
  | .ok existingSubnets => .ok existingSubnets.length
  | .error e => if e ≠ .notFound then .error (.datastore e) else .ok 0

/-- Lines 85-109 of `AllocateSubnet`: pick the candidate at the index given by
the number of existing assignments and store it. -/
def assignSubnet (s : service) (ds : Bucket) (localSubnetKey : String) :
    Outcome (Text × Bucket) :=
  match countAssigned ds with
  | .error e => .err e
  | .ok assigned =>
    if s.subnets.length < assigned then .err (.needSubnets assigned)
    else
      match s.subnets[assigned]? with
      | none => .fault
      | some cidr =>
        match Datastore.Set ds localSubnetKey cidr with
        | .error e => .err (.datastore e)
        | .ok ds1 => .ok (cidr, ds1)

/-- `AllocateSubnet` (subnet.go lines 24-115) on the bucket `ds`; a successful
call returns the response and the bucket it leaves. The client to the own
address and the `Subnets` call (lines 25-38) are taken to succeed; their
errors are returned before the Datastore is touched. -/
def AllocateSubnet (s : service) (ds : Bucket) (node : String) :
    Outcome (AllocateSubnetResponse × Bucket) :=
  let localSubnetKey := dsSubnetsKey node
  if s.subnets.length = 0 then .err .ErrNoAvailableSubnets
  else
    match readLocalSubnet ds localSubnetKey with
    | .error e => .err e
    | .ok localSubnet =>
      match checkConfig s localSubnet with
      | .error e => .err e
      | .ok localSubnet =>
        if localSubnet = .empty then
          match assignSubnet s ds localSubnetKey with
          | .ok (cidr, ds1) => .ok (⟨cidr, node⟩, ds1)
          | .err e => .err e
          | .fault => .fault
        else .ok (⟨localSubnet, node⟩, ds)

/-- `GetSubnet` after the Datastore `Get` has returned `r` (lines 126-135). -/
def getSubnetOf (r : Except DsError Text) : Except Error GetSubnetResponse :=
  match r with
  | .ok localSubnet => .ok ⟨localSubnet⟩
  | .error e => if e ≠ .notFound then .error .ErrSubnetNotFound else .ok ⟨.empty⟩

/-- `GetSubnet` (subnet.go lines 117-136). -/
def GetSubnet (ds : Bucket) (node : String) : Except Error GetSubnetResponse :=
  getSubnetOf (Datastore.Get ds (dsSubnetsKey node))

/-! ## Predicates used by the properties -/

/-- `c` is a candidate as `Subnets()` derives them: a child of the configured
cluster network with exactly `subnetMaskBits` extra prefix bits. -/
def isCandidate (s : service) : Text → Bool
  | .cidr ip len =>
    decide (ip < 2 ^ 32 ∧ len ≤ 32 ∧ len = s.configSubnet.len + s.subnetMaskBits ∧
      maskIP ip s.configSubnet.len = s.configSubnet.ip)
  | _ => false

/-- The states reachable from the empty bucket by successful `AllocateSubnet` calls. -/
inductive Reachable (s : service) : Bucket → Prop where
  | init : Reachable s []
  | step (ds ds1 : Bucket) (node : String) (r : AllocateSubnetResponse) :
      Reachable s ds → AllocateSubnet s ds node = .ok (r, ds1) → Reachable s ds1

/-- Cluster 10.0.0.0/16 with 8 subnet bits and its first three candidates. -/
def svc10 : service :=
  { configSubnet := ⟨ipv4 10 0 0 0, 16⟩
    subnetMaskBits := 8
    subnets := [.cidr (ipv4 10 0 0 0) 24, .cidr (ipv4 10 0 1 0) 24, .cidr (ipv4 10 0 2 0) 24] }

/-- Cluster 192.168.0.0/16 with 8 subnet bits and its first three candidates. -/
def svc192 : service :=
  { configSubnet := ⟨ipv4 192 168 0 0, 16⟩
    subnetMaskBits := 8
    subnets := [.cidr (ipv4 192 168 0 0) 24, .cidr (ipv4 192 168 1 0) 24,
      .cidr (ipv4 192 168 2 0) 24] }

/-- The bucket after `n0` and `n1` were assigned under cluster 10.0.0.0/16. -/
def bucket10 : Bucket :=
  [("subnets.n0", .cidr (ipv4 10 0 0 0) 24), ("subnets.n1", .cidr (ipv4 10 0 1 0) 24)]

/-- Cluster 10.0.0.0/16 with 8 subnet bits and a single candidate. -/
def svcOne : service :=
  { configSubnet := ⟨ipv4 10 0 0 0, 16⟩
    subnetMaskBits := 8
    subnets := [.cidr (ipv4 10 0 0 0) 24] }

/-- Cluster 0.0.0.0/0 with 8 subnet bits and two of its candidates. -/
def svcZero : service :=
  { configSubnet := ⟨ipv4 0 0 0 0, 0⟩
    subnetMaskBits := 8
    subnets := [.cidr (ipv4 1 0 0 0) 8, .cidr (ipv4 2 0 0 0) 8] }

end network

/-! ## Service dependencies (`Requires()`) -/

namespace services

/-- The `services.Type` values named by the two `Requires()` methods and `Type()`
methods of the application and proxy services. -/
inductive ServiceType where
  | NodeService
  | ProxyService
  | NameserverService
  | ClusterService
  | SchedulerService
  | DatastoreService
  | ApplicationService
deriving DecidableEq, Repr

namespace application

/-- `Type()` of the application service. -/
def serviceType : ServiceType := .ApplicationService

/-- `Requires()` of the application service (application/service.go lines 56-64). -/
def Requires : List ServiceType :=
  [.NodeService, .ProxyService, .NameserverService, .ClusterService, .SchedulerService]

end application

namespace proxy

/-- `Type()` of the proxy service. -/
def serviceType : ServiceType := .ProxyService

/-- `Requires()` of the proxy service (proxy/service.go lines 71-77). -/
def Requires : List ServiceType :=
  [.DatastoreService, .ApplicationService, .NameserverService]

end proxy

/-- The `Requires()` list declared for a service type, for the two services
whose source declares one. -/
def requiresOf : ServiceType → Option (List ServiceType)
  | .ApplicationService => some application.Requires
  | .ProxyService => some proxy.Requires
  | _ => none

/-- Edge `T -> U`: the service of type `T` lists `U` in `Requires()`. -/
def edge (T U : ServiceType) : Bool :=
  match requiresOf T with
  | some l => l.contains U
  | none => false

/-- `T` reaches `U` through one or more edges. -/
def Reaches (T U : ServiceType) : Prop := Relation.TransGen (fun a b => edge a b = true) T U

end services

/-! ## Scheduler -/

namespace scheduler

structure Node where
  ID : String
  Address : String
  Labels : List (String × String)
deriving DecidableEq, Repr

structure PlacementPreference where
  NodeIDs : List String
  Labels : List (String × String)
deriving DecidableEq, Repr

structure Service where
  Name : String
  Replicas : Nat
  PlacementPreference : Option PlacementPreference
deriving DecidableEq, Repr

inductive SchedError where
  | ErrInvalidPreference
deriving DecidableEq, Repr

/-- Modelled from the spec: the label test of `schedule` (the function is not
among the sources, only its tests are). A node matches iff for every `(k, v)`
of the preference it has label `k` with value `v`; an empty expected value is
unsatisfiable. -/
def matchesLabels (labels : List (String × String)) (n : Node) : Bool :=
  labels.all (fun kv => decide (kv.2 ≠ "") && decide (n.Labels.lookup kv.1 = some kv.2))

/-- Modelled from the spec: the first `r` matches in input order; when fewer
than `r` nodes match, the matches are repeated in order until `r` placements
are made (scenario S6 and `TestScheduleNodesByMultipleLabelsWithReplicas`:
one match, two replicas, output `[node-00, node-00]`); no match gives no
placement. Entry `i` of the output is match number `i mod |matches|`. -/
def firstWithRepetition (r : Nat) (found : List Node) : List Node :=
  (List.range r).filterMap (fun i => found.get? (i % found.length))

/-- Modelled from the spec: the nodes of `available` that match the placement
preference of `spec` (all of them when there is no preference). -/
def matching (spec : Service) (available : List Node) : List Node :=
  match spec.PlacementPreference with
  | none => available
  | some p =>
    if p.NodeIDs ≠ [] then available.filter (fun n => decide (n.ID ∈ p.NodeIDs))
    else if p.Labels ≠ [] then available.filter (matchesLabels p.Labels)
    else available

/-- Modelled from the spec: `schedule` of the scheduler service, which is not
among the sources (section 4.4 of the specification, scenarios S1-S7, and the
expectations of `schedule_test.go`).
* no preference (nil, or both lists empty): the first available node;
* `NodeIDs`: the available nodes whose ID is listed, the first one only for
  `Replicas` 0 or 1, else the first `min(Replicas, |filtered|)`;
* `Labels`: the first `Replicas` matches in input order, with repetition when
  replicas exceed the matching nodes;
* both `NodeIDs` and `Labels` set: `ErrInvalidPreference`. -/
def schedule (spec : Service) (available : List Node) : Except SchedError (List Node) :=
  match spec.PlacementPreference with
  | none => .ok (available.take 1)
  | some p =>
    if p.NodeIDs ≠ [] ∧ p.Labels ≠ [] then .error .ErrInvalidPreference
    else if p.NodeIDs ≠ [] then
      let filtered := available.filter (fun n => decide (n.ID ∈ p.NodeIDs))
      if spec.Replicas ≤ 1 then .ok (filtered.take 1)
      else .ok (filtered.take (min spec.Replicas filtered.length))
    else if p.Labels ≠ [] then
      .ok (firstWithRepetition spec.Replicas (available.filter (matchesLabels p.Labels)))
    else .ok (available.take 1)

/-- The three nodes of `TestScheduleNodesByLabelWithReplicas`. -/
def nodesByLabel : List Node :=
  [⟨"node-00", "127.0.0.1:9000", [("env", "prod")]⟩,
   ⟨"node-01", "127.0.0.1:9001", [("env", "qa")]⟩,
   ⟨"node-02", "127.0.0.1:9002", [("env", "prod")]⟩]

/-- The three nodes of `TestScheduleNodesByMultipleLabelsWithReplicas`. -/
def nodesByMultipleLabels : List Node :=
  [⟨"node-00", "127.0.0.1:9000", [("env", "prod"), ("region", "east")]⟩,
   ⟨"node-01", "127.0.0.1:9001", [("env", "qa"), ("region", "west")]⟩,
   ⟨"node-02", "127.0.0.1:9002", [("env", "prod"), ("region", "south")]⟩]

/-- The service of the tests with a label preference and two replicas. -/
def labelService (labels : List (String × String)) : Service :=
  { Name := "test-service", Replicas := 2, PlacementPreference := some ⟨[], labels⟩ }

end scheduler

/-! ## Heartbeat -/

namespace agent

structure Peer where
  Name : String
  Addr : String
deriving DecidableEq, Repr

/-- Whether each remote step of a probe succeeds for a peer: `element.NewClient`,
`HealthService.Health`, `Containers`. -/
structure PeerOutcome where
  NewClient : Bool
  Health : Bool
  Containers : Bool
deriving DecidableEq, Repr

/-- What a tick does, in order: opening a client to a peer, and the log lines. -/
inductive Event where
  | newClient (peer : Peer)
  | errGettingPeers
  | errCommunicating
  | peerHealth (peer : Peer)
  | errGettingContainers
  | containers (peer : Peer)
deriving DecidableEq, Repr

/-- The `for _, peer := range peers` loop of `heartbeat` (lines 18-58); every
error branch logs and returns from `heartbeat`. -/
def heartbeatLoop (outcome : Peer → PeerOutcome) : List Peer → List Event
  | [] => []
  | peer :: rest =>
    .newClient peer ::
      (if (outcome peer).NewClient = false then [.errCommunicating]
       else if (outcome peer).Health = false then [.errCommunicating]
       else .peerHealth peer ::
         (if (outcome peer).Containers = false then [.errGettingContainers]
          else .containers peer :: heartbeatLoop outcome rest))

/-- One tick: `heartbeat` (heartbeat.go lines 11-59); `peers` is what `a.Peers()`
returns, `none` standing for its error. -/
def heartbeat (peers : Option (List Peer)) (outcome : Peer → PeerOutcome) : List Event :=
  match peers with
  | none => [.errGettingPeers]
  | some ps => heartbeatLoop outcome ps

/-- The peers probed during a tick: those a client was opened to. -/
def probed (events : List Event) : List Peer :=
  events.filterMap (fun e => match e with
    | .newClient p => some p
    | _ => none)

end agent

/-! ## Proxy event listener -/

namespace services

namespace proxy

/-- What `events.UnmarshalEvent` makes of an envelope, as far as the type switch
of the listener tells payloads apart: the three types of the reload case, or
any other type (the tag tells different ones apart). -/
inductive Message where
  | appUpdateEvent
  | nsCreateEvent
  | nsDeleteEvent
  | other (tag : Nat)
deriving DecidableEq, Repr

/-- One `stream.Recv()`: a transport error, or an envelope, given by what
`events.UnmarshalEvent` returns on it (`none` for its error). -/
inductive Received where
  | recvError
  | envelope (unmarshalled : Option Message)
deriving DecidableEq, Repr

/-- What the listener does, in order. -/
inductive LogEntry where
  | errSubscribing
  | errUnmarshalling
  | reloadingProxy (e : Message)
  | unknownEventType (e : Message)
deriving DecidableEq, Repr

/-- The `switch e := msg.(type)` of the listener (service.go lines 116-123). -/
def handle (msg : Message) : LogEntry :=
  match msg with
  | .appUpdateEvent => .reloadingProxy msg
  | .nsCreateEvent => .reloadingProxy msg
  | .nsDeleteEvent => .reloadingProxy msg
  | .other _ => .unknownEventType msg

/-- The `for` loop of the listener (service.go lines 103-124) over what the
successive `Recv` calls return; both error branches log and return from the
goroutine, and the end of the list is the loop waiting in `Recv`. -/
def eventLoop : List Received → List LogEntry
  | [] => []
  | .recvError :: _ => [.errSubscribing]
  | .envelope none :: _ => [.errUnmarshalling]
  | .envelope (some msg) :: rest => handle msg :: eventLoop rest

/-- The goroutine started by `Start` (service.go lines 92-125); `stream` is what
`Subscribe` returns, `none` standing for its error. The client of line 86 is
taken to be there. -/
def Start (stream : Option (List Received)) : List LogEntry :=
  match stream with
  | none => [.errSubscribing]
  | some received => eventLoop received

/-- The envelopes that reach the type switch during a run: one per handled entry. -/
def handled (log : List LogEntry) : List Message :=
  log.filterMap (fun l => match l with
    | .reloadingProxy e => some e
    | .unknownEventType e => some e
    | _ => none)

end proxy

end services

/-! # Properties -/

namespace network

/-! ## Arithmetic of masks -/

theorem maskIP_le (ip len : Nat) : maskIP ip len ≤ ip := by
  unfold maskIP
  exact Nat.div_mul_le_self ip _

theorem maskIP_maskIP (ip l m : Nat) (hml : m ≤ l) :
    maskIP (maskIP ip l) m = maskIP ip m := by
  unfold maskIP
  have hab : 32 - l ≤ 32 - m := by omega
  obtain ⟨d, hd⟩ := Nat.exists_eq_add_of_le hab
  rw [hd, pow_add]
  have h2 : 0 < 2 ^ (32 - l) := by positivity
  have : ip / 2 ^ (32 - l) * 2 ^ (32 - l) / (2 ^ (32 - l) * 2 ^ d) = ip / (2 ^ (32 - l) * 2 ^ d) := by
    rw [mul_comm (ip / 2 ^ (32 - l)), Nat.mul_div_mul_left _ _ h2, Nat.div_div_eq_div_mul]
  rw [this]

theorem cidrMaskSize_sub (len smb : Nat) (hlen : len ≤ 32) :
    cidrMaskSize ((len : Int) - (smb : Int)) 32 = len - smb := by
  unfold cidrMaskSize
  split
  · omega
  · omega

/-! ## Keys -/

theorem dsSubnetsKey_injective (a b : String) (h : dsSubnetsKey a = dsSubnetsKey b) : a = b := by
  unfold dsSubnetsKey at h
  have h1 := congrArg String.data h
  simp only [String.data_append] at h1
  exact String.ext (List.append_cancel_left h1)

theorem searchKey_isPrefixOf (node : String) :
    (dsSubnetsKey "").data.isPrefixOf (dsSubnetsKey node).data = true := by
  rw [List.isPrefixOf_iff_prefix]
  unfold dsSubnetsKey
  simp only [String.data_append]
  exact ⟨node.data, by simp⟩

/-! ## The bucket -/

theorem lookup_upsert_self (key : String) (v : Text) (ds : Bucket) :
    (upsert key v ds).lookup key = some v := by
  induction ds with
  | nil => simp [upsert, List.lookup]
  | cons kv rest ih =>
    obtain ⟨k, w⟩ := kv
    unfold upsert
    by_cases hk : k = key
    · simp [hk, List.lookup]
    · have : (key == k) = false := by
        simpa using fun h => hk h.symm
      simp [hk, List.lookup, this, ih]

theorem lookup_upsert_of_ne (key key1 : String) (v : Text) (ds : Bucket) (h : key1 ≠ key) :
    (upsert key v ds).lookup key1 = ds.lookup key1 := by
  induction ds with
  | nil =>
    have : (key1 == key) = false := by simpa using h
    simp [upsert, List.lookup, this]
  | cons kv rest ih =>
    obtain ⟨k, w⟩ := kv
    unfold upsert
    by_cases hk : k = key
    · subst hk
      have : (key1 == k) = false := by simpa using h
      simp [List.lookup, this]
    · simp only [hk, if_false]
      by_cases h1 : key1 = k
      · simp [List.lookup, h1]
      · have : (key1 == k) = false := by simpa using h1
        simp [List.lookup, this, ih]

theorem upsert_of_lookup_none (key : String) (v : Text) (ds : Bucket)
    (h : ds.lookup key = none) : upsert key v ds = ds ++ [(key, v)] := by
  induction ds with
  | nil => rfl
  | cons kv rest ih =>
    obtain ⟨k, w⟩ := kv
    by_cases hk : key = k
    · subst hk
      simp [List.lookup] at h
    · have hb : (key == k) = false := by simpa using hk
      have hk1 : ¬ k = key := fun e => hk e.symm
      simp only [List.lookup, hb] at h
      simp [upsert, hk1, ih h]

theorem map_fst_upsert_of_lookup_some (key : String) (v w : Text) (ds : Bucket)
    (h : ds.lookup key = some w) : (upsert key v ds).map Prod.fst = ds.map Prod.fst := by
  induction ds with
  | nil => simp [List.lookup] at h
  | cons kv rest ih =>
    obtain ⟨k, u⟩ := kv
    by_cases hk : key = k
    · subst hk
      simp [upsert]
    · have hb : (key == k) = false := by simpa using hk
      have hk1 : ¬ k = key := fun e => hk e.symm
      simp only [List.lookup, hb] at h
      simp [upsert, hk1, ih h]

theorem lookup_eq_none_iff_not_mem_keys (key : String) (ds : Bucket) :
    ds.lookup key = none ↔ key ∉ ds.map Prod.fst := by
  induction ds with
  | nil => simp [List.lookup]
  | cons kv rest ih =>
    obtain ⟨k, u⟩ := kv
    by_cases hk : key = k
    · subst hk
      simp [List.lookup]
    · have hb : (key == k) = false := by simpa using hk
      simp [List.lookup, hb, ih, hk]

/-! ## The steps of `AllocateSubnet` -/

theorem readLocalSubnet_eq (ds : Bucket) (key : String) :
    readLocalSubnet ds key = .ok ((ds.lookup key).getD .empty) := by
  unfold readLocalSubnet Datastore.Get
  cases ds.lookup key <;> simp

theorem countAssigned_eq (ds : Bucket) :
    countAssigned ds =
      .ok (ds.filter (fun kv => (dsSubnetsKey "").data.isPrefixOf kv.1.data)).length := by
  simp [countAssigned, Datastore.Search]

theorem clusterSubnetOf_candidate (s : service) (c : Text) (h : isCandidate s c = true) :
    clusterSubnetOf s c = .ok s.configSubnet := by
  cases c with
  | empty => simp [isCandidate] at h
  | malformed tag => simp [isCandidate] at h
  | cidr ip len =>
    simp only [isCandidate, decide_eq_true_eq] at h
    obtain ⟨hip, hlen, hl, hm⟩ := h
    unfold clusterSubnetOf
    simp only [ParseCIDR, hip, hlen, and_self, if_true]
    rw [cidrMaskSize_sub len s.subnetMaskBits hlen]
    have h1 : maskIP ip len < 2 ^ 32 := lt_of_le_of_lt (maskIP_le ip len) hip
    have h2 : len - s.subnetMaskBits ≤ 32 := by omega
    simp only [h1, h2, and_self, if_true]
    rw [maskIP_maskIP ip len _ (Nat.sub_le _ _)]
    have h3 : len - s.subnetMaskBits = s.configSubnet.len := by omega
    rw [h3, hm]

theorem checkConfig_candidate (s : service) (c : Text) (h : isCandidate s c = true) :
    checkConfig s c = .ok c := by
  have hne : c ≠ .empty := by
    intro e
    simp [e, isCandidate] at h
  simp [checkConfig, hne, clusterSubnetOf_candidate s c h]

theorem assignSubnet_ok (s : service) (ds ds1 : Bucket) (key : String) (c : Text)
    (h : assignSubnet s ds key = .ok (c, ds1)) :
    s.subnets[(ds.filter
        (fun kv => (dsSubnetsKey "").data.isPrefixOf kv.1.data)).length]? = some c ∧
      ds1 = upsert key c ds := by
  unfold assignSubnet at h
  simp only [countAssigned_eq, Datastore.Set] at h
  split at h
  · cases h
  · cases hg : s.subnets[(ds.filter
      (fun kv => (dsSubnetsKey "").data.isPrefixOf kv.1.data)).length]? with
    | none => simp [hg] at h
    | some c1 =>
      simp only [hg, Outcome.ok.injEq, Prod.mk.injEq] at h
      obtain ⟨hc, hds⟩ := h
      subst hc
      exact ⟨rfl, hds.symm⟩

/-- A successful `AllocateSubnet` either returns the stored record, leaving the
bucket as it is, or stores and returns the candidate at the index given by the
number of entries under `subnets.`. -/
theorem AllocateSubnet_ok (s : service) (ds ds1 : Bucket) (node : String)
    (r : AllocateSubnetResponse) (h : AllocateSubnet s ds node = .ok (r, ds1)) :
    r.Node = node ∧
    ∃ t, checkConfig s ((ds.lookup (dsSubnetsKey node)).getD .empty) = .ok t ∧
      ((t ≠ .empty ∧ r.SubnetCIDR = t ∧ ds1 = ds) ∨
       (t = .empty ∧
        s.subnets[(ds.filter
          (fun kv => (dsSubnetsKey "").data.isPrefixOf kv.1.data)).length]? = some r.SubnetCIDR ∧
        ds1 = upsert (dsSubnetsKey node) r.SubnetCIDR ds)) := by
  unfold AllocateSubnet at h
  simp only [readLocalSubnet_eq] at h
  by_cases h0 : s.subnets.length = 0
  · simp [h0] at h
  · simp only [h0, if_false] at h
    cases hc : checkConfig s ((ds.lookup (dsSubnetsKey node)).getD .empty) with
    | error e => simp [hc] at h
    | ok t =>
      simp only [hc] at h
      by_cases ht : t = .empty
      · simp only [ht, if_true] at h
        cases ha : assignSubnet s ds (dsSubnetsKey node) with
        | err e => simp [ha] at h
        | fault => simp [ha] at h
        | ok cd =>
          obtain ⟨c, d⟩ := cd
          simp only [ha, Outcome.ok.injEq, Prod.mk.injEq] at h
          obtain ⟨hr, hds⟩ := h
          subst hr
          subst hds
          obtain ⟨hg, hu⟩ := assignSubnet_ok s ds d (dsSubnetsKey node) c ha
          exact ⟨rfl, .empty, by rw [ht], Or.inr ⟨rfl, hg, hu⟩⟩
      · simp only [ht, if_false, Outcome.ok.injEq, Prod.mk.injEq] at h
        obtain ⟨hr, hds⟩ := h
        subst hr
        exact ⟨rfl, t, rfl, Or.inl ⟨ht, rfl, hds.symm⟩⟩

/-! ## Invariant of the reachable buckets -/

theorem lookup_mem_values (key : String) (v : Text) (ds : Bucket)
    (h : ds.lookup key = some v) : v ∈ ds.map Prod.snd := by
  induction ds with
  | nil => simp [List.lookup] at h
  | cons kv rest ih =>
    obtain ⟨k, u⟩ := kv
    by_cases hk : key = k
    · subst hk
      simp only [List.lookup, beq_self_eq_true, Option.some.injEq] at h
      simp [h]
    · have hb : (key == k) = false := by simpa using hk
      simp only [List.lookup, hb] at h
      simp [ih h]

theorem lookup_inj_of_nodup_values (ds : Bucket) (hnd : (ds.map Prod.snd).Nodup)
    (k1 k2 : String) (v : Text) (h1 : ds.lookup k1 = some v) (h2 : ds.lookup k2 = some v) :
    k1 = k2 := by
  induction ds with
  | nil => simp [List.lookup] at h1
  | cons kv rest ih =>
    obtain ⟨k, u⟩ := kv
    simp only [List.map_cons, List.nodup_cons] at hnd
    by_cases e1 : k1 = k
    · by_cases e2 : k2 = k
      · rw [e1, e2]
      · have hb : (k2 == k) = false := by simpa using e2
        simp only [List.lookup, hb] at h2
        subst e1
        simp only [List.lookup, beq_self_eq_true, Option.some.injEq] at h1
        subst h1
        exact absurd (lookup_mem_values k2 u rest h2) hnd.1
    · have hb1 : (k1 == k) = false := by simpa using e1
      simp only [List.lookup, hb1] at h1
      by_cases e2 : k2 = k
      · subst e2
        simp only [List.lookup, beq_self_eq_true, Option.some.injEq] at h2
        subst h2
        exact absurd (lookup_mem_values k1 u rest h1) hnd.1
      · have hb2 : (k2 == k) = false := by simpa using e2
        simp only [List.lookup, hb2] at h2
        exact ih hnd.2 h1 h2

theorem Get_ok_iff (ds : Bucket) (key : String) (v : Text) :
    Datastore.Get ds key = .ok v ↔ ds.lookup key = some v := by
  unfold Datastore.Get
  cases ds.lookup key <;> simp

/-- With unchanged configuration the bucket reached from the empty one holds,
in order of first assignment, the first candidates: keys are distinct, all
under `subnets.`, and the values are an initial segment of the candidate list. -/
theorem reachable_invariant (s : service)
    (hcand : ∀ c ∈ s.subnets, isCandidate s c = true)
    (ds : Bucket) (hreach : Reachable s ds) :
    (ds.map Prod.fst).Nodup ∧
    (∀ kv ∈ ds, (dsSubnetsKey "").data.isPrefixOf kv.1.data = true) ∧
    ds.map Prod.snd = s.subnets.take ds.length := by
  induction hreach with
  | init => simp
  | step ds ds1 node r _ hcall ih =>
    obtain ⟨hkeys, hpre, hvals⟩ := ih
    obtain ⟨_, t, hcheck, hcase⟩ := AllocateSubnet_ok s ds ds1 node r hcall
    rcases hcase with ⟨_, _, hds⟩ | ⟨ht, hget, hds⟩
    · rw [hds]
      exact ⟨hkeys, hpre, hvals⟩
    · have hnone : ds.lookup (dsSubnetsKey node) = none := by
        cases hl : ds.lookup (dsSubnetsKey node) with
        | none => rfl
        | some v =>
          exfalso
          have hv : v ∈ s.subnets := by
            have := lookup_mem_values _ v ds hl
            rw [hvals] at this
            exact List.mem_of_mem_take this
          rw [hl, Option.getD_some, checkConfig_candidate s v (hcand v hv)] at hcheck
          cases hcheck
          have := hcand t hv
          rw [ht] at this
          simp [isCandidate] at this
      have hcount : (ds.filter
          (fun kv => (dsSubnetsKey "").data.isPrefixOf kv.1.data)).length = ds.length := by
        rw [List.filter_eq_self.mpr hpre]
      rw [hcount] at hget
      rw [hds, upsert_of_lookup_none _ _ _ hnone]
      refine ⟨?_, ?_, ?_⟩
      · rw [List.map_append, List.map_singleton]
        refine List.Nodup.append hkeys (List.nodup_singleton _) ?_
        rw [List.disjoint_singleton]
        exact (lookup_eq_none_iff_not_mem_keys _ _).mp hnone
      · intro kv hkv
        rcases List.mem_append.mp hkv with h1 | h1
        · exact hpre kv h1
        · rw [List.mem_singleton] at h1
          rw [h1]
          exact searchKey_isPrefixOf node
      · rw [List.map_append, List.map_singleton, hvals, List.length_append,
          List.length_singleton, List.take_succ, hget]
        rfl

/-- C1: in every bucket reachable from the empty one by successful
`AllocateSubnet` calls under an unchanged configuration whose candidates are
pairwise distinct children of the cluster network with exactly
`subnetMaskBits` extra bits, there is at most one record per key and two
distinct nodes hold different CIDRs. -/
theorem allocate_reachable_distinct_subnets (s : service)
    (hdistinct : s.subnets.Nodup)
    (hcand : ∀ c ∈ s.subnets, isCandidate s c = true)
    (ds : Bucket) (hreach : Reachable s ds) :
    (ds.map Prod.fst).Nodup ∧
    ∀ a b va vb, a ≠ b → Datastore.Get ds (dsSubnetsKey a) = .ok va →
      Datastore.Get ds (dsSubnetsKey b) = .ok vb → va ≠ vb := by
  obtain ⟨hkeys, _, hvals⟩ := reachable_invariant s hcand ds hreach
  refine ⟨hkeys, ?_⟩
  intro a b va vb hab ha hb hv
  rw [Get_ok_iff] at ha hb
  subst hv
  have hnd : (ds.map Prod.snd).Nodup := by
    rw [hvals]
    exact hdistinct.sublist (List.take_sublist _ _)
  exact hab (dsSubnetsKey_injective a b
    (lookup_inj_of_nodup_values ds hnd _ _ va ha hb))

theorem reachable_bucket10 : Reachable svc10 bucket10 :=
  Reachable.step [("subnets.n0", .cidr (ipv4 10 0 0 0) 24)] bucket10 "n1"
    ⟨.cidr (ipv4 10 0 1 0) 24, "n1"⟩
    (Reachable.step [] [("subnets.n0", .cidr (ipv4 10 0 0 0) 24)] "n0"
      ⟨.cidr (ipv4 10 0 0 0) 24, "n0"⟩ Reachable.init (by decide))
    (by decide)

theorem allocate_reachable_distinct_subnets_witness :
    svc10.subnets.Nodup ∧ (∀ c ∈ svc10.subnets, isCandidate svc10 c = true) ∧
    Reachable svc10 bucket10 ∧
    (bucket10.map Prod.fst).Nodup ∧
    Datastore.Get bucket10 (dsSubnetsKey "n0") = .ok (.cidr (ipv4 10 0 0 0) 24) ∧
    Datastore.Get bucket10 (dsSubnetsKey "n1") = .ok (.cidr (ipv4 10 0 1 0) 24) ∧
    Text.cidr (ipv4 10 0 0 0) 24 ≠ Text.cidr (ipv4 10 0 1 0) 24 :=
  have h := allocate_reachable_distinct_subnets svc10 (by decide) (by decide) bucket10
    reachable_bucket10
  ⟨by decide, by decide, reachable_bucket10, h.1, rfl, rfl,
    h.2 "n0" "n1" _ _ (by decide) rfl rfl⟩

/-! ## Idempotence -/

/-- C2: with the candidates that `Subnets()` derives from the unchanged
configuration (children of the cluster network with exactly `subnetMaskBits`
extra bits), a successful `AllocateSubnet(n)` on any bucket is followed by a
successful `AllocateSubnet(n)` on the resulting bucket that returns the same
CIDR (and leaves that bucket as it is). -/
theorem allocate_twice_same_cidr (s : service)
    (hcand : ∀ c ∈ s.subnets, isCandidate s c = true)
    (ds ds1 : Bucket) (node : String) (r : AllocateSubnetResponse)
    (h : AllocateSubnet s ds node = .ok (r, ds1)) :
    AllocateSubnet s ds1 node = .ok (r, ds1) := by
  obtain ⟨hnode, t, _, hcase⟩ := AllocateSubnet_ok s ds ds1 node r h
  rcases hcase with ⟨_, _, hds⟩ | ⟨_, hget, hds⟩
  · rw [hds] at h ⊢
    exact h
  · have hmem : r.SubnetCIDR ∈ s.subnets := List.getElem?_mem hget
    have hc := hcand _ hmem
    have hne : r.SubnetCIDR ≠ .empty := by
      intro e
      rw [e] at hc
      simp [isCandidate] at hc
    have hlen : s.subnets.length ≠ 0 := by
      intro e
      rw [List.length_eq_zero] at e
      rw [e] at hmem
      simp at hmem
    have hr : r = ⟨r.SubnetCIDR, node⟩ := by
      cases r
      simp only [AllocateSubnetResponse.mk.injEq, true_and]
      exact hnode
    unfold AllocateSubnet
    simp only [hlen, if_false, readLocalSubnet_eq]
    rw [hds, lookup_upsert_self, Option.getD_some, checkConfig_candidate s _ hc]
    simp only [hne, if_false]
    rw [← hr]

theorem allocate_twice_same_cidr_witness :
    AllocateSubnet svc10 [] "n0" =
      .ok (⟨.cidr (ipv4 10 0 0 0) 24, "n0"⟩, [("subnets.n0", .cidr (ipv4 10 0 0 0) 24)]) ∧
    AllocateSubnet svc10 [("subnets.n0", .cidr (ipv4 10 0 0 0) 24)] "n0" =
      .ok (⟨.cidr (ipv4 10 0 0 0) 24, "n0"⟩, [("subnets.n0", .cidr (ipv4 10 0 0 0) 24)]) ∧
    AllocateSubnet svc10 [("subnets.n0", .cidr (ipv4 10 0 0 0) 24)] "n1" =
      .ok (⟨.cidr (ipv4 10 0 1 0) 24, "n1"⟩, bucket10) :=
  ⟨by decide,
   allocate_twice_same_cidr svc10 (by decide) [] _ "n0" _ (by decide),
   by decide⟩

/-! ## Children of the configured cluster network -/

/-- A record `0.0.0.0/0` placed under cluster 0.0.0.0/0, which no
`AllocateSubnet` call writes (its prefix is shorter than `subnetMaskBits`), is
kept: the negative mask length is read back as 0, so the reconstructed cluster
network is the configured one. -/
theorem zero_prefix_record_kept :
    AllocateSubnet svcZero [("subnets.n0", .cidr (ipv4 0 0 0 0) 0)] "n0" =
      .ok (⟨.cidr (ipv4 0 0 0 0) 0, "n0"⟩, [("subnets.n0", .cidr (ipv4 0 0 0 0) 0)]) := by
  decide

/-- A node without a record, with as many entries under `subnets.` as there
are candidates: the guard `len(subnets) < assigned` lets the index through and
the selection faults. -/
theorem AllocateSubnet_fault_when_full (s : service) (ds : Bucket) (node : String)
    (hS : s.subnets ≠ [])
    (hnone : ds.lookup (dsSubnetsKey node) = none)
    (hfull : countAssigned ds = .ok s.subnets.length) :
    AllocateSubnet s ds node = .fault := by
  have hlen : s.subnets.length ≠ 0 := by
    intro e
    exact hS (List.length_eq_zero.mp e)
  unfold AllocateSubnet
  simp only [hlen, if_false, readLocalSubnet_eq, hnone, Option.getD_none]
  have hcheck : checkConfig s .empty = .ok .empty := by simp [checkConfig]
  simp only [hcheck, if_true]
  unfold assignSubnet
  simp [hfull]

theorem exists_unused_node (ds : Bucket) : ∃ node, ds.lookup (dsSubnetsKey node) = none := by
  have hbound : ∃ n, ∀ kv ∈ ds, kv.1.length ≤ n := by
    induction ds with
    | nil => exact ⟨0, by simp⟩
    | cons kv rest ih =>
      obtain ⟨n, hn⟩ := ih
      refine ⟨max kv.1.length n, ?_⟩
      intro x hx
      rcases List.mem_cons.mp hx with h | h
      · rw [h]
        exact le_max_left _ _
      · exact le_trans (hn x h) (le_max_right _ _)
  obtain ⟨n, hn⟩ := hbound
  refine ⟨String.mk (List.replicate (n + 1) 'x'), ?_⟩
  rw [lookup_eq_none_iff_not_mem_keys]
  intro hmem
  obtain ⟨kv, hkv, hk⟩ := List.mem_map.mp hmem
  have h1 := hn kv hkv
  rw [hk] at h1
  simp only [dsSubnetsKey, String.length_append, String.length_mk, List.length_replicate] at h1
  omega

/-- A node without a record is given the candidate at the index of the number
of entries under `subnets.`, when there is one. -/
theorem AllocateSubnet_of_no_record (s : service) (ds : Bucket) (node : String) (c : Text)
    (hnone : ds.lookup (dsSubnetsKey node) = none)
    (hget : s.subnets[(ds.filter
      (fun kv => (dsSubnetsKey "").data.isPrefixOf kv.1.data)).length]? = some c) :
    AllocateSubnet s ds node = .ok (⟨c, node⟩, upsert (dsSubnetsKey node) c ds) := by
  have hlen : s.subnets.length ≠ 0 := by
    intro e
    rw [List.length_eq_zero] at e
    rw [e] at hget
    simp at hget
  have hlt : ¬ s.subnets.length <
      (ds.filter (fun kv => (dsSubnetsKey "").data.isPrefixOf kv.1.data)).length := by
    intro hlt
    have := List.getElem?_eq_none (Nat.le_of_lt hlt)
    rw [this] at hget
    cases hget
  have hcheck : checkConfig s .empty = .ok .empty := by simp [checkConfig]
  unfold AllocateSubnet
  simp only [hlen, if_false, readLocalSubnet_eq, hnone, Option.getD_none, hcheck, if_true]
  unfold assignSubnet
  simp only [countAssigned_eq, Datastore.Set, hlt, if_false, hget]

/-- Successful calls alone fill the bucket up to any size within the candidate list. -/
theorem reachable_of_length (s : service)
    (hcand : ∀ c ∈ s.subnets, isCandidate s c = true) (k : Nat) (hk : k ≤ s.subnets.length) :
    ∃ ds, Reachable s ds ∧ ds.length = k := by
  induction k with
  | zero => exact ⟨[], Reachable.init, rfl⟩
  | succ k ih =>
    obtain ⟨ds, hreach, hlen⟩ := ih (Nat.le_of_succ_le hk)
    obtain ⟨_, hpre, _⟩ := reachable_invariant s hcand ds hreach
    obtain ⟨node, hnone⟩ := exists_unused_node ds
    have hcount : (ds.filter
        (fun kv => (dsSubnetsKey "").data.isPrefixOf kv.1.data)).length = k := by
      rw [List.filter_eq_self.mpr hpre, hlen]
    have hlt : k < s.subnets.length := hk
    have hget : s.subnets[(ds.filter
        (fun kv => (dsSubnetsKey "").data.isPrefixOf kv.1.data)).length]? = some s.subnets[k] := by
      rw [hcount]
      exact List.getElem?_eq_getElem hlt
    refine ⟨upsert (dsSubnetsKey node) s.subnets[k] ds,
      Reachable.step ds _ node ⟨s.subnets[k], node⟩ hreach
        (AllocateSubnet_of_no_record s ds node _ hnone hget), ?_⟩
    rw [upsert_of_lookup_none _ _ _ hnone, List.length_append, hlen]
    rfl

/-- Under every configuration with at least one candidate the fault is reached
by successful calls alone: once every candidate is assigned, the call of a
further node faults. -/
theorem fault_reachable (s : service) (hS : s.subnets ≠ [])
    (hcand : ∀ c ∈ s.subnets, isCandidate s c = true) :
    ∃ ds node, Reachable s ds ∧ AllocateSubnet s ds node = .fault := by
  obtain ⟨ds, hreach, hlen⟩ := reachable_of_length s hcand s.subnets.length (le_refl _)
  obtain ⟨_, hpre, _⟩ := reachable_invariant s hcand ds hreach
  obtain ⟨node, hnone⟩ := exists_unused_node ds
  refine ⟨ds, node, hreach, AllocateSubnet_fault_when_full s ds node hS hnone ?_⟩
  rw [countAssigned_eq, List.filter_eq_self.mpr hpre, hlen]

/-- C4 (failing input): one candidate, one existing assignment for `n0`, and
`n1` asks for a subnet: the index 1 is not within the one-element list and
`AllocateSubnet` faults instead of returning an error. -/
theorem allocate_index_out_of_range :
    svcOne.subnets.length = 1 ∧
    countAssigned [("subnets.n0", .cidr (ipv4 10 0 0 0) 24)] = .ok 1 ∧
    AllocateSubnet svcOne [("subnets.n0", .cidr (ipv4 10 0 0 0) 24)] "n1" = .fault := by
  refine ⟨rfl, rfl, ?_⟩
  decide

/-! ## `GetSubnet` -/

/-- Without a record for the node, `GetSubnet` answers with the empty CIDR and no error. -/
theorem GetSubnet_of_no_record (ds : Bucket) (node : String)
    (hnone : ds.lookup (dsSubnetsKey node) = none) : GetSubnet ds node = .ok ⟨.empty⟩ := by
  simp [GetSubnet, Datastore.Get, hnone, getSubnetOf]

/-- C5 (failing input): on a bucket without a record for the node the Get
reports NotFound and `GetSubnet` returns a response with the empty CIDR and no
error; `ErrSubnetNotFound` is what it returns for every other Datastore error. -/
theorem getSubnet_unassigned_returns_empty :
    Datastore.Get [] (dsSubnetsKey "n0") = .error .notFound ∧
    GetSubnet [] "n0" = .ok ⟨.empty⟩ ∧
    getSubnetOf (.error .unavailable) = .error .ErrSubnetNotFound := by
  refine ⟨rfl, rfl, rfl⟩

/-! ## Change of the configured cluster network -/

theorem length_filter_keys_upsert (key : String) (v w : Text) (ds : Bucket)
    (q : String → Bool) (h : ds.lookup key = some w) :
    ((upsert key v ds).filter (fun kv => q kv.1)).length =
      (ds.filter (fun kv => q kv.1)).length := by
  have e : ∀ l : Bucket, (l.filter (fun kv => q kv.1)).length = ((l.map Prod.fst).filter q).length := by
    intro l
    induction l with
    | nil => rfl
    | cons kv rest ih =>
      by_cases hq : q kv.1 = true
      · simp [List.filter_cons, hq, ih]
      · simp [List.filter_cons, hq, ih]
  rw [e, e, map_fst_upsert_of_lookup_some key v w ds h]

/-- Two nodes whose records both fail the configuration check are given the
same candidate when they ask one after the other: the reassignment of the
first overwrites its record in place, so the second counts the same entries. -/
theorem stale_records_reassigned_alike (s : service) (ds ds1 : Bucket) (a b : String)
    (ta tb : Text) (r : AllocateSubnetResponse) (hab : a ≠ b)
    (ha : ds.lookup (dsSubnetsKey a) = some ta) (hb : ds.lookup (dsSubnetsKey b) = some tb)
    (hsa : checkConfig s ta = .ok .empty) (hsb : checkConfig s tb = .ok .empty)
    (h : AllocateSubnet s ds a = .ok (r, ds1)) :
    AllocateSubnet s ds1 b =
      .ok (⟨r.SubnetCIDR, b⟩, upsert (dsSubnetsKey b) r.SubnetCIDR ds1) := by
  obtain ⟨_, t, hcheck, hcase⟩ := AllocateSubnet_ok s ds ds1 a r h
  rw [ha, Option.getD_some, hsa] at hcheck
  cases hcheck
  rcases hcase with ⟨hne, _, _⟩ | ⟨_, hget, hds⟩
  · exact absurd rfl hne
  · have hlen : s.subnets.length ≠ 0 := by
      intro e
      rw [List.length_eq_zero] at e
      rw [e] at hget
      simp at hget
    have hkey : dsSubnetsKey b ≠ dsSubnetsKey a := fun e => hab (dsSubnetsKey_injective b a e).symm
    have hb1 : ds1.lookup (dsSubnetsKey b) = some tb := by
      rw [hds, lookup_upsert_of_ne _ _ _ _ hkey, hb]
    have hcount := length_filter_keys_upsert (dsSubnetsKey a) r.SubnetCIDR ta ds
      (fun k => (dsSubnetsKey "").data.isPrefixOf k.data) ha
    rw [← hds] at hcount
    unfold AllocateSubnet
    simp only [hlen, if_false, readLocalSubnet_eq, hb1, Option.getD_some, hsb, if_true]
    unfold assignSubnet
    simp only [countAssigned_eq, hcount, Datastore.Set]
    have hlt : ¬ s.subnets.length <
        (ds.filter (fun kv => (dsSubnetsKey "").data.isPrefixOf kv.1.data)).length := by
      intro hlt
      have := List.getElem?_eq_none (Nat.le_of_lt hlt)
      rw [this] at hget
      cases hget
    simp only [hlt, if_false, hget]

/-- C6 (failing input): `n0` and `n1` hold 10.0.0.0/24 and 10.0.1.0/24 under
cluster 10.0.0.0/16; after the switch to 192.168.0.0/16 both records are stale,
each reassignment counts the same two entries, and both nodes end up with
192.168.2.0/24. -/
theorem reassigned_nodes_share_subnet :
    Reachable svc10 bucket10 ∧
    AllocateSubnet svc192 bucket10 "n0" =
      .ok (⟨.cidr (ipv4 192 168 2 0) 24, "n0"⟩,
        [("subnets.n0", .cidr (ipv4 192 168 2 0) 24), ("subnets.n1", .cidr (ipv4 10 0 1 0) 24)]) ∧
    AllocateSubnet svc192
        [("subnets.n0", .cidr (ipv4 192 168 2 0) 24), ("subnets.n1", .cidr (ipv4 10 0 1 0) 24)]
        "n1" =
      .ok (⟨.cidr (ipv4 192 168 2 0) 24, "n1"⟩,
        [("subnets.n0", .cidr (ipv4 192 168 2 0) 24),
         ("subnets.n1", .cidr (ipv4 192 168 2 0) 24)]) ∧
    Datastore.Get [("subnets.n0", .cidr (ipv4 192 168 2 0) 24),
        ("subnets.n1", .cidr (ipv4 192 168 2 0) 24)] (dsSubnetsKey "n0") =
      Datastore.Get [("subnets.n0", .cidr (ipv4 192 168 2 0) 24),
        ("subnets.n1", .cidr (ipv4 192 168 2 0) 24)] (dsSubnetsKey "n1") := by
  refine ⟨reachable_bucket10, ?_, ?_, rfl⟩
  · decide
  · decide

end network

/-! ## Dependencies between services -/

namespace services

/-- C7, as stated, fails: the application service requires the proxy service
and the proxy service requires the application service, so each of the two
reaches itself through two edges. -/
theorem requires_cycle_counterexample :
    edge .ApplicationService .ProxyService = true ∧
    edge .ProxyService .ApplicationService = true ∧
    Reaches .ApplicationService .ApplicationService ∧
    Reaches .ProxyService .ProxyService := by
  have h1 : edge .ApplicationService .ProxyService = true := by decide
  have h2 : edge .ProxyService .ApplicationService = true := by decide
  exact ⟨h1, h2, Relation.TransGen.tail (Relation.TransGen.single h1) h2,
    Relation.TransGen.tail (Relation.TransGen.single h2) h1⟩

/-- C7 (amended): among the edges declared by the two `Requires()` methods, no
service lists its own type, and the mutual dependency of the application and
proxy services is the only cycle: a service type reaches itself exactly when it
is `ApplicationService` or `ProxyService`. -/
theorem requires_only_mutual_cycle :
    (∀ T : ServiceType, edge T T = false) ∧
    ∀ T : ServiceType, Reaches T T ↔ (T = .ApplicationService ∨ T = .ProxyService) := by
  refine ⟨fun T => by cases T <;> rfl, ?_⟩
  intro T
  constructor
  · intro h
    obtain ⟨U, hTU, _⟩ := Relation.TransGen.head'_iff.mp h
    revert hTU
    cases T <;> cases U <;> simp [edge, requiresOf]
  · have h1 : edge .ApplicationService .ProxyService = true := by decide
    have h2 : edge .ProxyService .ApplicationService = true := by decide
    rintro (h | h)
    · rw [h]
      exact Relation.TransGen.tail (Relation.TransGen.single h1) h2
    · rw [h]
      exact Relation.TransGen.tail (Relation.TransGen.single h2) h1

end services

/-! ## Scheduler -/

namespace scheduler

theorem length_firstWithRepetition_le (r : Nat) (found : List Node) :
    (firstWithRepetition r found).length ≤ r := by
  unfold firstWithRepetition
  calc ((List.range r).filterMap (fun i => found.get? (i % found.length))).length
      ≤ (List.range r).length := List.length_filterMap_le _ _
    _ = r := List.length_range r

theorem mem_of_mem_firstWithRepetition (r : Nat) (found : List Node) (n : Node)
    (h : n ∈ firstWithRepetition r found) : n ∈ found := by
  unfold firstWithRepetition at h
  obtain ⟨i, _, hi⟩ := List.mem_filterMap.mp h
  exact List.get?_mem hi

theorem firstWithRepetition_nil (r : Nat) : firstWithRepetition r [] = [] := by
  rw [List.eq_nil_iff_forall_not_mem]
  intro n hn
  have := mem_of_mem_firstWithRepetition r [] n hn
  simp at this

theorem matchesLabels_iff (labels : List (String × String)) (n : Node) :
    matchesLabels labels n = true ↔
      ∀ kv ∈ labels, kv.2 ≠ "" ∧ n.Labels.lookup kv.1 = some kv.2 := by
  simp [matchesLabels, List.all_eq_true]

/-- C8, as stated, fails on the input of
`TestScheduleNodesByMultipleLabelsWithReplicas`: one node matches, two
replicas are asked for, and the output has two entries (both `node-00`). -/
theorem schedule_exceeds_matching_counterexample :
    schedule (labelService [("env", "prod"), ("region", "east")]) nodesByMultipleLabels =
      .ok [⟨"node-00", "127.0.0.1:9000", [("env", "prod"), ("region", "east")]⟩,
           ⟨"node-00", "127.0.0.1:9000", [("env", "prod"), ("region", "east")]⟩] ∧
    matching (labelService [("env", "prod"), ("region", "east")]) nodesByMultipleLabels =
      [⟨"node-00", "127.0.0.1:9000", [("env", "prod"), ("region", "east")]⟩] ∧
    ¬ ((2 : Nat) ≤ (matching (labelService [("env", "prod"), ("region", "east")])
      nodesByMultipleLabels).length) := by
  refine ⟨rfl, rfl, ?_⟩
  decide

/-- C8 (amended): the length of the output of `schedule` is at most
`max(1, Replicas)`; every output node is one of the matching nodes, so the
output is empty when no node matches; and without a label preference the
length is at most the number of matching nodes. -/
theorem schedule_length_bounds (spec : Service) (available out : List Node)
    (h : schedule spec available = .ok out) :
    out.length ≤ max 1 spec.Replicas ∧
    (∀ n ∈ out, n ∈ matching spec available) ∧
    (matching spec available = [] → out = []) ∧
    ((∀ p, spec.PlacementPreference = some p → p.Labels = []) →
      out.length ≤ (matching spec available).length) := by
  have key : out.length ≤ max 1 spec.Replicas ∧
      (∀ n ∈ out, n ∈ matching spec available) ∧
      ((∀ p, spec.PlacementPreference = some p → p.Labels = []) →
        out.length ≤ (matching spec available).length) := by
    unfold schedule at h
    unfold matching
    cases hp : spec.PlacementPreference with
    | none =>
      simp only [hp, Except.ok.injEq] at h
      subst h
      refine ⟨?_, ?_, ?_⟩
      · exact le_trans (List.length_take_le _ _) (by omega)
      · intro n hn
        exact List.mem_of_mem_take hn
      · intro _
        exact List.length_take_le' _ _
    | some p =>
      simp only [hp] at h
      by_cases hids : p.NodeIDs = []
      · by_cases hlab : p.Labels = []
        · simp only [hids, hlab, ne_eq, not_true_eq_false, and_self, if_false,
            Except.ok.injEq] at h
          subst h
          simp only [hids, hlab, ne_eq, not_true_eq_false, if_false]
          refine ⟨?_, ?_, ?_⟩
          · exact le_trans (List.length_take_le _ _) (by omega)
          · intro n hn
            exact List.mem_of_mem_take hn
          · intro _
            exact List.length_take_le' _ _
        · simp only [hids, hlab, ne_eq, not_true_eq_false, false_and, if_false,
            not_false_eq_true, if_true, Except.ok.injEq] at h
          subst h
          simp only [hids, hlab, ne_eq, not_true_eq_false, if_false, not_false_eq_true, if_true]
          refine ⟨?_, ?_, ?_⟩
          · exact le_trans (length_firstWithRepetition_le _ _) (le_max_right _ _)
          · intro n hn
            exact mem_of_mem_firstWithRepetition _ _ n hn
          · intro hno
            exact absurd (hno p rfl) hlab
      · by_cases hlab : p.Labels = []
        · simp only [hids, hlab, ne_eq, not_true_eq_false, and_false, if_false,
            not_false_eq_true, if_true] at h
          simp only [hids, ne_eq, not_false_eq_true, if_true]
          by_cases hr : spec.Replicas ≤ 1
          · simp only [hr, if_true, Except.ok.injEq] at h
            subst h
            refine ⟨?_, ?_, ?_⟩
            · exact le_trans (List.length_take_le _ _) (by omega)
            · intro n hn
              exact List.mem_of_mem_take hn
            · intro _
              exact List.length_take_le' _ _
          · simp only [hr, if_false, Except.ok.injEq] at h
            subst h
            refine ⟨?_, ?_, ?_⟩
            · exact le_trans (List.length_take_le _ _) (by omega)
            · intro n hn
              exact List.mem_of_mem_take hn
            · intro _
              exact List.length_take_le' _ _
        · simp [hids, hlab] at h
  refine ⟨key.1, key.2.1, ?_, key.2.2⟩
  intro hnil
  rw [List.eq_nil_iff_forall_not_mem]
  intro n hn
  have := key.2.1 n hn
  rw [hnil] at this
  simp at this

theorem schedule_length_bounds_witness :
    schedule (labelService [("env", "prod"), ("region", "east")]) nodesByMultipleLabels =
      .ok [⟨"node-00", "127.0.0.1:9000", [("env", "prod"), ("region", "east")]⟩,
           ⟨"node-00", "127.0.0.1:9000", [("env", "prod"), ("region", "east")]⟩] ∧
    (2 : Nat) ≤ max 1 (labelService [("env", "prod"), ("region", "east")]).Replicas :=
  ⟨rfl, (schedule_length_bounds (labelService [("env", "prod"), ("region", "east")])
    nodesByMultipleLabels
    [⟨"node-00", "127.0.0.1:9000", [("env", "prod"), ("region", "east")]⟩,
     ⟨"node-00", "127.0.0.1:9000", [("env", "prod"), ("region", "east")]⟩] rfl).1⟩

/-- C9: for a preference with non-empty `Labels` and no `NodeIDs`, `schedule`
returns a list whose every node is in the available list and carries, for
every `(k, v)` of the preference, label `k` with value `v`; when some expected
value is the empty string the list is empty. -/
theorem schedule_labels_sound (spec : Service) (p : PlacementPreference)
    (available : List Node)
    (hp : spec.PlacementPreference = some p) (hlab : p.Labels ≠ []) (hids : p.NodeIDs = []) :
    ∃ out, schedule spec available = .ok out ∧
      (∀ n ∈ out, n ∈ available ∧ ∀ kv ∈ p.Labels, n.Labels.lookup kv.1 = some kv.2) ∧
      ((∃ kv ∈ p.Labels, kv.2 = "") → out = []) := by
  refine ⟨firstWithRepetition spec.Replicas (available.filter (matchesLabels p.Labels)),
    ?_, ?_, ?_⟩
  · unfold schedule
    simp [hp, hids, hlab]
  · intro n hn
    have hmem := mem_of_mem_firstWithRepetition _ _ n hn
    rw [List.mem_filter] at hmem
    refine ⟨hmem.1, ?_⟩
    intro kv hkv
    exact ((matchesLabels_iff p.Labels n).mp hmem.2 kv hkv).2
  · rintro ⟨kv, hkv, hempty⟩
    have hnone : available.filter (matchesLabels p.Labels) = [] := by
      rw [List.filter_eq_nil_iff]
      intro n _ hm
      exact ((matchesLabels_iff p.Labels n).mp hm kv hkv).1 hempty
    rw [hnone, firstWithRepetition_nil]

theorem schedule_labels_sound_witness :
    schedule (labelService [("env", "prod")]) nodesByLabel =
      .ok [⟨"node-00", "127.0.0.1:9000", [("env", "prod")]⟩,
           ⟨"node-02", "127.0.0.1:9002", [("env", "prod")]⟩] ∧
    schedule (labelService [("env", "prod"), ("region", "")]) nodesByMultipleLabels = .ok [] ∧
    ∃ out, schedule (labelService [("env", "prod")]) nodesByLabel = .ok out ∧
      (∀ n ∈ out, n ∈ nodesByLabel ∧
        ∀ kv ∈ [("env", "prod")], n.Labels.lookup kv.1 = some kv.2) ∧
      ((∃ kv ∈ [("env", "prod")], kv.2 = "") → out = []) :=
  ⟨rfl, rfl, schedule_labels_sound (labelService [("env", "prod")]) ⟨[], [("env", "prod")]⟩
    nodesByLabel rfl (by decide) rfl⟩

end scheduler

/-! ## Heartbeat -/

namespace agent

/-- The peers probed in a tick stop at the first peer with a failing step. -/
theorem probed_stops_at_failure (outcome : Peer → PeerOutcome) (peer : Peer) (rest : List Peer)
    (h : (outcome peer).NewClient = false ∨ (outcome peer).Health = false ∨
      (outcome peer).Containers = false) :
    probed (heartbeat (some (peer :: rest)) outcome) = [peer] := by
  unfold heartbeat heartbeatLoop
  rcases h with h | h | h
  · simp [h, probed]
  · by_cases h1 : (outcome peer).NewClient = false
    · simp [h1, probed]
    · simp [h1, h, probed]
  · by_cases h1 : (outcome peer).NewClient = false
    · simp [h1, probed]
    · by_cases h2 : (outcome peer).Health = false
      · simp [h1, h2, probed]
      · simp [h1, h2, h, probed]

/-- C10 (failing input): two peers, the client to the first cannot be opened:
the tick logs the error and returns, and the second peer is not probed. -/
theorem heartbeat_stops_at_first_failure :
    heartbeat (some [⟨"p0", "10.0.0.1:9000"⟩, ⟨"p1", "10.0.0.2:9000"⟩])
        (fun p => if p.Name = "p0" then ⟨false, true, true⟩ else ⟨true, true, true⟩) =
      [.newClient ⟨"p0", "10.0.0.1:9000"⟩, .errCommunicating] ∧
    (⟨"p1", "10.0.0.2:9000"⟩ : Peer) ∉
      probed (heartbeat (some [⟨"p0", "10.0.0.1:9000"⟩, ⟨"p1", "10.0.0.2:9000"⟩])
        (fun p => if p.Name = "p0" then ⟨false, true, true⟩ else ⟨true, true, true⟩)) := by
  decide

end agent

/-! ## Proxy event listener -/

namespace services

namespace proxy

/-- An envelope of an unknown type is logged and the loop goes on with the next one. -/
theorem eventLoop_unknown_type (tag : Nat) (rest : List Received) :
    eventLoop (.envelope (some (.other tag)) :: rest) =
      .unknownEventType (.other tag) :: eventLoop rest := by
  rfl

/-- An envelope that does not unmarshal ends the loop: whatever follows, the
log of the run stops at the error. -/
theorem eventLoop_unmarshal_error (rest : List Received) :
    eventLoop (.envelope none :: rest) = [.errUnmarshalling] := by
  rfl

/-- C11 (failing input): an envelope that fails to unmarshal followed by an
application `UpdateEvent`: the listener logs the error and returns, so the
`UpdateEvent` never reaches the reload branch; after an envelope of an unknown
type the same `UpdateEvent` does reach it. -/
theorem listener_stops_at_unmarshal_error :
    Start (some [.envelope none, .envelope (some .appUpdateEvent)]) = [.errUnmarshalling] ∧
    LogEntry.reloadingProxy .appUpdateEvent ∉
      Start (some [.envelope none, .envelope (some .appUpdateEvent)]) ∧
    handled (Start (some [.envelope none, .envelope (some .appUpdateEvent)])) = [] ∧
    Start (some [.envelope (some (.other 0)), .envelope (some .appUpdateEvent)]) =
      [.unknownEventType (.other 0), .reloadingProxy .appUpdateEvent] := by
  decide

end proxy

end services
